import Mathlib

/-!
Shallow embedding of the DVID resource manager broker
(`dvid_resource_manager/server.py`).

The broker is a single-threaded event loop.  Its mutable state is:
  * `config` — the four admission ceilings,
  * `resource_limits` — per-resource usage counters (a Python dict,
    modelled as an association list),
  * `current_work_items` — the granted set (dict id → request),
  * `work_items` — the FIFO wait queue (deque of (priority, request)),
  * `clientid` — the next id to assign,
  * `publish_list` — the pending-grant set.

Each inbound message is processed by `processMessage`, which returns either
`.ok reply pubs s'` (the reply sent on the REP socket, the ids published on
the PUB socket during this iteration, and the new state — the loop then
continues) or `.fatal sent s'` (an uncaught Python exception terminates the
loop; `sent` records the reply, if any, emitted before the exception was
raised).

Python integers are unbounded, so `numopts`, `datasize` and all counters and
ceilings are modelled as `Int`.
-/

namespace DVIDRM

/-- The admission-ceiling config (`DEFAULT_CONFIG` keys): exactly four
integer fields. -/
structure Config where
  read_reqs : Int
  read_data : Int
  write_reqs : Int
  write_data : Int
deriving DecidableEq

/-- Per-resource usage counters (`ResourceManagerServer.ServerStats`). -/
structure ServerStats where
  read_reqs : Int
  read_data : Int
  write_reqs : Int
  write_data : Int
deriving DecidableEq

/-- `ServerStats.__init__`: all four counters start at zero. -/
def ServerStats.init : ServerStats := ⟨0, 0, 0, 0⟩

/-- A resource request as stored by the server: the JSON fields
`resource`, `read`, `numopts`, `datasize`, plus the server-assigned `id`
(set in the `request` branch of the loop). -/
structure Request where
  id : Nat
  resource : String
  read : Bool
  numopts : Int
  datasize : Int
deriving DecidableEq

/-- Association-list lookup, modelling Python `d[k]` / `k in d`
(keys are unique in the dicts the server builds). -/
def lookupA {α β : Type} [DecidableEq α] (k : α) : List (α × β) → Option β
  | [] => none
  | (a, b) :: t => if a = k then some b else lookupA k t

/-- Association-list update, modelling Python `d[k] = v`. -/
def updateA {α β : Type} [DecidableEq α] (k : α) (v : β) : List (α × β) → List (α × β)
  | [] => [(k, v)]
  | (a, b) :: t => if a = k then (k, v) :: t else (a, b) :: updateA k v t

/-- Association-list deletion, modelling Python `del d[k]`. -/
def eraseA {α β : Type} [DecidableEq α] (k : α) : List (α × β) → List (α × β)
  | [] => []
  | (a, b) :: t => if a = k then t else (a, b) :: eraseA k t

/-- The broker's mutable state (the locals of `ResourceManagerServer.run`
together with `self.config` and `self.resource_limits`). -/
structure ServerState where
  config : Config
  resource_limits : List (String × ServerStats)
  current_work_items : List (Nat × Request)
  work_items : List (Int × Request)
  clientid : Nat
  publish_list : List Nat
deriving DecidableEq

/-- Usage counters currently recorded for `name` (zero when the resource has
never been seen: absent dict entries behave as zeroed stats). -/
def getStats (s : ServerState) (name : String) : ServerStats :=
  (lookupA name s.resource_limits).getD ServerStats.init

/-- Add a request's `(numopts, datasize)` to the `(reqs, data)` pair selected
by its `read` flag (the increment in `is_available` lines 214-219, repeated
verbatim in `request_resource` lines 198-203). -/
def applyDelta (request : Request) (st : ServerStats) : ServerStats :=
  if request.read then
    { st with read_reqs := st.read_reqs + request.numopts,
              read_data := st.read_data + request.datasize }
  else
    { st with write_reqs := st.write_reqs + request.numopts,
              write_data := st.write_data + request.datasize }

/-- Subtract a request's `(numopts, datasize)` from the pair selected by its
`read` flag (the decrement in `finish_work` lines 244-249). -/
def subDelta (request : Request) (st : ServerStats) : ServerStats :=
  if request.read then
    { st with read_reqs := st.read_reqs - request.numopts,
              read_data := st.read_data - request.datasize }
  else
    { st with write_reqs := st.write_reqs - request.numopts,
              write_data := st.write_data - request.datasize }

/-- `ResourceManagerServer.is_available` (lines 212-224): build the projected
stats and compare all four fields with the config ceilings, using `≤`. -/
def is_available (config : Config) (request : Request) (curr_stats : ServerStats) : Bool :=
  let new_stats := applyDelta request curr_stats
  decide (new_stats.read_reqs ≤ config.read_reqs)
    && decide (new_stats.read_data ≤ config.read_data)
    && decide (new_stats.write_reqs ≤ config.write_reqs)
    && decide (new_stats.write_data ≤ config.write_data)

/-- Lines 193-194 of `request_resource`: lazily create a zeroed stats entry
for a resource name seen for the first time. -/
def ensureEntry (s : ServerState) (name : String) : ServerState :=
  match lookupA name s.resource_limits with
  | none => { s with resource_limits := s.resource_limits ++ [(name, ServerStats.init)] }
  | some _ => s

/-- `ResourceManagerServer.request_resource` (lines 191-207): ensure the stats
entry exists; if the request is admissible, commit the delta and record the
request in `current_work_items`, returning `True`; else return `False`. -/
def request_resource (s : ServerState) (request : Request) : Bool × ServerState :=
  let s₁ := ensureEntry s request.resource
  let stats := getStats s₁ request.resource
  if is_available s₁.config request stats then
    (true, { s₁ with
              resource_limits := updateA request.resource (applyDelta request stats) s₁.resource_limits,
              current_work_items := updateA request.id request s₁.current_work_items })
  else
    (false, s₁)

/-- `ResourceManagerServer.find_work` (lines 228-235): pop the head of the
wait queue; on success return its id, else push it back at the head and
return the sentinel `-1`.  (The source indexes `work_items[0]` and is only
called with a non-empty queue; the `[]` case is the same sentinel.) -/
def find_work (s : ServerState) : Int × ServerState :=
  match s.work_items with
  | [] => (-1, s)
  | (priority, work_item) :: rest =>
    let s₁ := { s with work_items := rest }
    match request_resource s₁ work_item with
    | (true, s₂) => ((work_item.id : Int), s₂)
    | (false, s₂) => (-1, { s₂ with work_items := (priority, work_item) :: s₂.work_items })

/-- `ResourceManagerServer.finish_work` (lines 238-249): look up the stored
request record by id, delete it from `current_work_items`, and subtract its
stored delta from its resource's stats.  `none` models the `KeyError`
raised when the id (or, unreachably, the resource entry) is missing; the
first lookup fails before any state is mutated. -/
def finish_work (s : ServerState) (curr_id : Nat) : Option ServerState :=
  match lookupA curr_id s.current_work_items with
  | none => none
  | some request =>
    match lookupA request.resource s.resource_limits with
    | none => none
    | some stats =>
      some { s with
              current_work_items := eraseA curr_id s.current_work_items,
              resource_limits := updateA request.resource (subDelta request stats) s.resource_limits }

/-- Python `set.add` on the pending-grant set (insertion order is irrelevant
for a set; we keep a duplicate-free list). -/
def insertPub (cid : Nat) (l : List Nat) : List Nat :=
  if cid ∈ l then l else l ++ [cid]

/-- The `while len(self.work_items) > 0` drain loop in the `release` branch
(lines 171-178): call `find_work`; on success add the id to the pending-grant
set and publish it, else stop.  Each successful iteration removes exactly one
queue element and never adds any, so `fuel = work_items.length` makes the
fueled recursion extensionally equal to the source's while loop.  The
returned list is the sequence of ids published, in order. -/
def drainLoop : Nat → ServerState → List Nat → ServerState × List Nat
  | 0, s, pubs => (s, pubs.reverse)
  | fuel + 1, s, pubs =>
    if s.work_items.length = 0 then (s, pubs.reverse)
    else
      match find_work s with
      | (cid, s') =>
        if cid = -1 then (s', pubs.reverse)
        else drainLoop fuel { s' with publish_list := insertPub cid.toNat s'.publish_list }
               (cid.toNat :: pubs)

/-- The drain performed after a release, with adequate fuel. -/
def drain (s : ServerState) : ServerState × List Nat :=
  drainLoop s.work_items.length s []

/-- An inbound JSON message, dispatched on its `type` string (lines 151-185).
`other` covers every `type` string the dispatch has no branch for — note in
particular that the dispatch has no `read-config` branch, so a
`{"type": "read-config"}` message arrives here as `Msg.other "read-config"`. -/
inductive Msg where
  | request (resource : String) (read : Bool) (numopts datasize : Int)
  | hold (id : Nat)
  | release (id : Nat)
  | config (newConfig : Config)
  | other (type : String)
deriving DecidableEq

/-- A JSON reply sent on the REP socket. -/
inductive Reply where
  /-- `{"available": b, "id": id}` -/
  | availableResp (available : Bool) (id : Nat)
  /-- `{}` -/
  | emptyResp
  /-- the new config echoed back verbatim -/
  | configEcho (c : Config)
deriving DecidableEq

/-- Outcome of one loop iteration: `.ok reply pubs s'` (reply sent, ids
published, loop continues with state `s'`) or `.fatal sent s'` (an uncaught
exception terminates the loop; `sent` is the reply emitted before the
raise, if any). -/
inductive StepResult where
  | ok (reply : Reply) (pubs : List Nat) (s : ServerState)
  | fatal (sent : Option Reply) (s : ServerState)
deriving DecidableEq

/-- The dispatch section of `ResourceManagerServer.run` (lines 151-185),
processing one received message:
  * `request`: assign the next id, try `request_resource`; reply
    `{"available": true/false, "id": id}` and enqueue at the tail on failure;
  * `hold`: `publish_list.remove(id)` — a `KeyError` (fatal, nothing sent)
    when the id is not pending, else reply `{}`;
  * `release`: `finish_work` (`KeyError` when the id was never granted —
    fatal, nothing sent, state untouched), reply `{}`, then drain the wait
    queue, publishing each granted id;
  * `config`: replace `self.config` and echo the new config back;
  * anything else: send `{}` and then raise (fatal after the reply). -/
def processMessage (s : ServerState) (m : Msg) : StepResult :=
  match m with
  | .request resource rd numopts datasize =>
    let request : Request :=
      { id := s.clientid, resource := resource, read := rd,
        numopts := numopts, datasize := datasize }
    let s₀ := { s with clientid := s.clientid + 1 }
    match request_resource s₀ request with
    | (true, s') => .ok (.availableResp true request.id) [] s'
    | (false, s') =>
      .ok (.availableResp false request.id) []
        { s' with work_items := s'.work_items ++ [(0, request)] }
  | .hold id =>
    if id ∈ s.publish_list then
      .ok .emptyResp [] { s with publish_list := s.publish_list.erase id }
    else
      .fatal none s
  | .release id =>
    match finish_work s id with
    | none => .fatal none s
    | some s₁ =>
      match drain s₁ with
      | (s₂, pubs) => .ok .emptyResp pubs s₂
  | .config c => .ok (.configEcho c) [] { s with config := c }
  | .other _ => .fatal (some .emptyResp) s

/-- The state at the top of the server loop (`run` lines 96-126): empty
dicts and queue, `clientid = 0`, empty pending-grant set. -/
def initServerState (config : Config) : ServerState :=
  { config := config, resource_limits := [], current_work_items := [],
    work_items := [], clientid := 0, publish_list := [] }

/-- A concrete reachable state used to exercise the release drain: under a
`read_reqs = 1` ceiling, request 0 (1 op / 5 bytes) holds resource "R" and
requests 1 and 2 (1 op / 3 bytes each) wait in the queue. -/
def exampleReleaseState : ServerState :=
  { config := ⟨1, 10, 1, 10⟩,
    resource_limits := [("R", ⟨1, 5, 0, 0⟩)],
    current_work_items := [(0, ⟨0, "R", true, 1, 5⟩)],
    work_items := [(0, ⟨1, "R", true, 1, 3⟩), (0, ⟨2, "R", true, 1, 3⟩)],
    clientid := 3,
    publish_list := [] }

/-- The state the broker reaches after processing `release 0` in
`exampleReleaseState`: waiter 1 is granted and published, waiter 2 stays
blocked at the head of the queue. -/
def exampleReleaseResult : ServerState :=
  { config := ⟨1, 10, 1, 10⟩,
    resource_limits := [("R", ⟨1, 3, 0, 0⟩)],
    current_work_items := [(1, ⟨1, "R", true, 1, 3⟩)],
    work_items := [(0, ⟨2, "R", true, 1, 3⟩)],
    clientid := 3,
    publish_list := [1] }

/-- All four usage counters are within the config ceilings. -/
abbrev statsLE (st : ServerStats) (c : Config) : Prop :=
  st.read_reqs ≤ c.read_reqs ∧ st.read_data ≤ c.read_data ∧
  st.write_reqs ≤ c.write_reqs ∧ st.write_data ≤ c.write_data

/-- All four config ceilings are non-negative (§3 of the data model). -/
abbrev configNonneg (c : Config) : Prop :=
  0 ≤ c.read_reqs ∧ 0 ≤ c.read_data ∧ 0 ≤ c.write_reqs ∧ 0 ≤ c.write_data

/-- The request carries non-negative `numopts` and `datasize`
(§3: `numopts` positive, `datasize` non-negative). -/
abbrev reqNonneg (r : Request) : Prop := 0 ≤ r.numopts ∧ 0 ≤ r.datasize

/-- The ceiling invariant: non-negative ceilings, every recorded resource
within the ceilings, and every granted or queued request with non-negative
deltas. -/
abbrev CeilingInv (s : ServerState) : Prop :=
  configNonneg s.config ∧
  (∀ p ∈ s.resource_limits, statsLE p.2 s.config) ∧
  (∀ p ∈ s.current_work_items, reqNonneg p.2) ∧
  (∀ p ∈ s.work_items, reqNonneg p.2)

/-- Side conditions on an inbound message under which the ceiling invariant
is preserved: requests carry non-negative deltas (per the data model), and a
reconfigure does not tighten any ceiling below existing usage (the proviso
of the `Ceiling honored` invariant). -/
abbrev msgOK (s : ServerState) (m : Msg) : Prop :=
  match m with
  | .request _ _ numopts datasize => 0 ≤ numopts ∧ 0 ≤ datasize
  | .config c => configNonneg c ∧ ∀ p ∈ s.resource_limits, statsLE p.2 c
  | _ => True

/-- The request at the head of the wait queue (if any) is not admissible
against the current stats of its resource. -/
def headNotAdmissible (s : ServerState) : Prop :=
  ∀ priority w rest, s.work_items = (priority, w) :: rest →
    is_available s.config w (getStats s w.resource) = false

section AListLemmas

variable {α β : Type} [DecidableEq α]

theorem lookupA_updateA_self (k : α) (v : β) (l : List (α × β)) :
    lookupA k (updateA k v l) = some v := by
  induction l with
  | nil => simp [updateA, lookupA]
  | cons hd t ih =>
    obtain ⟨a, b⟩ := hd
    by_cases h : a = k
    · simp [updateA, h, lookupA]
    · simp [updateA, h, lookupA, ih]

theorem lookupA_updateA_ne {k m : α} (v : β) (l : List (α × β)) (h : k ≠ m) :
    lookupA m (updateA k v l) = lookupA m l := by
  induction l with
  | nil => simp [updateA, lookupA, h]
  | cons hd t ih =>
    obtain ⟨a, b⟩ := hd
    by_cases ha : a = k
    · subst ha; simp [updateA, lookupA, h, ih]
    · simp [updateA, ha, lookupA, ih]

theorem mem_updateA {p : α × β} {k : α} {v : β} {l : List (α × β)}
    (h : p ∈ updateA k v l) : p ∈ l ∨ p = (k, v) := by
  induction l with
  | nil => simp only [updateA, List.mem_singleton] at h; exact Or.inr h
  | cons hd t ih =>
    obtain ⟨a, b⟩ := hd
    by_cases ha : a = k
    · simp only [updateA, ha, if_pos rfl] at h
      rcases List.mem_cons.mp h with h' | h'
      · right; exact h'
      · left; exact List.mem_cons_of_mem _ h'
    · simp only [updateA, if_neg ha] at h
      rcases List.mem_cons.mp h with h' | h'
      · left; exact h' ▸ List.mem_cons_self _ _
      · rcases ih h' with h'' | h''
        · left; exact List.mem_cons_of_mem _ h''
        · right; exact h''

theorem mem_eraseA {p : α × β} {k : α} {l : List (α × β)}
    (h : p ∈ eraseA k l) : p ∈ l := by
  induction l with
  | nil => simp [eraseA] at h
  | cons hd t ih =>
    obtain ⟨a, b⟩ := hd
    by_cases ha : a = k
    · simp only [eraseA, if_pos ha] at h
      exact List.mem_cons_of_mem _ h
    · simp only [eraseA, if_neg ha] at h
      rcases List.mem_cons.mp h with h' | h'
      · exact h' ▸ List.mem_cons_self _ _
      · exact List.mem_cons_of_mem _ (ih h')

theorem lookupA_mem {k : α} {v : β} {l : List (α × β)}
    (h : lookupA k l = some v) : (k, v) ∈ l := by
  induction l with
  | nil => simp [lookupA] at h
  | cons hd t ih =>
    obtain ⟨a, b⟩ := hd
    simp only [lookupA] at h
    split at h
    · rename_i ha
      obtain rfl : b = v := by simpa using h
      subst ha
      exact List.mem_cons_self _ _
    · exact List.mem_cons_of_mem _ (ih h)

theorem lookupA_append_none {k : α} {l₁ : List (α × β)} (l₂ : List (α × β))
    (h : lookupA k l₁ = none) : lookupA k (l₁ ++ l₂) = lookupA k l₂ := by
  induction l₁ with
  | nil => simp
  | cons hd t ih =>
    obtain ⟨a, b⟩ := hd
    by_cases ha : a = k
    · simp [lookupA, ha] at h
    · simp only [lookupA, if_neg ha] at h
      simpa [lookupA, ha] using ih h

theorem lookupA_append_some {k : α} {v : β} {l₁ : List (α × β)} (l₂ : List (α × β))
    (h : lookupA k l₁ = some v) : lookupA k (l₁ ++ l₂) = some v := by
  induction l₁ with
  | nil => simp [lookupA] at h
  | cons hd t ih =>
    obtain ⟨a, b⟩ := hd
    by_cases ha : a = k
    · simp only [lookupA, if_pos ha] at h ⊢; exact h
    · simp only [lookupA, if_neg ha] at h ⊢
      exact ih h

end AListLemmas

section OperationLemmas

theorem ensureEntry_config (s : ServerState) (n : String) :
    (ensureEntry s n).config = s.config := by
  unfold ensureEntry; cases lookupA n s.resource_limits <;> rfl

theorem ensureEntry_cwi (s : ServerState) (n : String) :
    (ensureEntry s n).current_work_items = s.current_work_items := by
  unfold ensureEntry; cases lookupA n s.resource_limits <;> rfl

theorem ensureEntry_wi (s : ServerState) (n : String) :
    (ensureEntry s n).work_items = s.work_items := by
  unfold ensureEntry; cases lookupA n s.resource_limits <;> rfl

theorem ensureEntry_clientid (s : ServerState) (n : String) :
    (ensureEntry s n).clientid = s.clientid := by
  unfold ensureEntry; cases lookupA n s.resource_limits <;> rfl

theorem ensureEntry_pub (s : ServerState) (n : String) :
    (ensureEntry s n).publish_list = s.publish_list := by
  unfold ensureEntry; cases lookupA n s.resource_limits <;> rfl

theorem getStats_ensureEntry (s : ServerState) (n m : String) :
    getStats (ensureEntry s n) m = getStats s m := by
  unfold ensureEntry
  cases h : lookupA n s.resource_limits with
  | none =>
    unfold getStats
    cases h₂ : lookupA m s.resource_limits with
    | none =>
      simp only [h₂]
      rw [lookupA_append_none _ h₂]
      by_cases hnm : n = m <;> simp [lookupA, hnm]
    | some v =>
      simp only [h₂]
      rw [lookupA_append_some _ h₂]
  | some v => rfl

theorem mem_ensureEntry {s : ServerState} {n : String} {p : String × ServerStats}
    (h : p ∈ (ensureEntry s n).resource_limits) :
    p ∈ s.resource_limits ∨ p = (n, ServerStats.init) := by
  unfold ensureEntry at h
  cases hl : lookupA n s.resource_limits with
  | none =>
    rw [hl] at h
    simp only at h
    rcases List.mem_append.mp h with h' | h'
    · left; exact h'
    · right; simpa using h'
  | some v =>
    rw [hl] at h
    left; exact h

theorem request_resource_true_eq {s s' : ServerState} {req : Request}
    (h : request_resource s req = (true, s')) :
    s'.resource_limits
        = updateA req.resource (applyDelta req (getStats s req.resource))
            (ensureEntry s req.resource).resource_limits ∧
    s'.current_work_items = updateA req.id req s.current_work_items ∧
    s'.config = s.config ∧ s'.work_items = s.work_items ∧
    s'.clientid = s.clientid ∧ s'.publish_list = s.publish_list ∧
    is_available s.config req (getStats s req.resource) = true := by
  simp only [request_resource] at h
  rw [ensureEntry_config, getStats_ensureEntry] at h
  split at h
  · rename_i hav
    have hs := (Prod.mk.injEq _ _ _ _ ▸ h).2
    subst hs
    refine ⟨rfl, ?_, ?_, ?_, ?_, ?_, hav⟩ <;>
      simp [ensureEntry_cwi, ensureEntry_config, ensureEntry_wi,
            ensureEntry_clientid, ensureEntry_pub]
  · exact absurd (congrArg Prod.fst h) (by simp)

theorem request_resource_false_eq {s s' : ServerState} {req : Request}
    (h : request_resource s req = (false, s')) :
    s' = ensureEntry s req.resource ∧
    is_available s.config req (getStats s req.resource) = false := by
  simp only [request_resource] at h
  rw [ensureEntry_config, getStats_ensureEntry] at h
  split at h
  · exact absurd (congrArg Prod.fst h) (by simp)
  · rename_i hav
    have hs := (Prod.mk.injEq _ _ _ _ ▸ h).2
    exact ⟨hs.symm, by simpa using hav⟩

theorem finish_work_some {s s' : ServerState} {curr_id : Nat}
    (h : finish_work s curr_id = some s') :
    ∃ req stats,
      lookupA curr_id s.current_work_items = some req ∧
      lookupA req.resource s.resource_limits = some stats ∧
      s' = { s with
              current_work_items := eraseA curr_id s.current_work_items,
              resource_limits :=
                updateA req.resource (subDelta req stats) s.resource_limits } := by
  unfold finish_work at h
  cases h₁ : lookupA curr_id s.current_work_items with
  | none => rw [h₁] at h; exact absurd h (by simp)
  | some req =>
    simp only [h₁] at h
    cases h₂ : lookupA req.resource s.resource_limits with
    | none => simp only [h₂] at h; exact absurd h (by simp)
    | some stats =>
      simp only [h₂, Option.some.injEq] at h
      exact ⟨req, stats, rfl, h₂, h.symm⟩

end OperationLemmas

section HelperLemmas

theorem is_available_iff (cfg : Config) (req : Request) (curr : ServerStats) :
    is_available cfg req curr = true ↔ statsLE (applyDelta req curr) cfg := by
  simp [is_available, statsLE, Bool.and_eq_true, decide_eq_true_eq, and_assoc]

theorem subDelta_applyDelta (req : Request) (st : ServerStats) :
    subDelta req (applyDelta req st) = st := by
  obtain ⟨a, b, c, d⟩ := st
  unfold subDelta applyDelta
  by_cases h : req.read <;> simp [h]

theorem statsLE_subDelta {req : Request} {st : ServerStats} {cfg : Config}
    (hn : reqNonneg req) (h : statsLE st cfg) : statsLE (subDelta req st) cfg := by
  obtain ⟨h1, h2, h3, h4⟩ := h
  obtain ⟨hn1, hn2⟩ := hn
  unfold subDelta
  by_cases hr : req.read <;> simp only [hr, if_pos, if_neg, Bool.false_eq_true] <;>
    exact ⟨by simp; omega, by simp; omega, by simp; omega, by simp; omega⟩

theorem statsLE_init {cfg : Config} (h : configNonneg cfg) :
    statsLE ServerStats.init cfg := h

theorem request_resource_wi (s : ServerState) (req : Request) :
    ((request_resource s req).2).work_items = s.work_items := by
  rcases h : request_resource s req with ⟨b, t⟩
  cases b
  · obtain ⟨ht, _⟩ := request_resource_false_eq h
    subst ht; exact ensureEntry_wi _ _
  · obtain ⟨_, _, _, hw, _, _, _⟩ := request_resource_true_eq h
    exact hw

theorem request_resource_config₂ (s : ServerState) (req : Request) :
    ((request_resource s req).2).config = s.config := by
  rcases h : request_resource s req with ⟨b, t⟩
  cases b
  · obtain ⟨ht, _⟩ := request_resource_false_eq h
    subst ht; exact ensureEntry_config _ _
  · obtain ⟨_, _, hc, _, _, _, _⟩ := request_resource_true_eq h
    exact hc

theorem request_resource_pub (s : ServerState) (req : Request) :
    ((request_resource s req).2).publish_list = s.publish_list := by
  rcases h : request_resource s req with ⟨b, t⟩
  cases b
  · obtain ⟨ht, _⟩ := request_resource_false_eq h
    subst ht; exact ensureEntry_pub _ _
  · obtain ⟨_, _, _, _, _, hp, _⟩ := request_resource_true_eq h
    exact hp

theorem lookupA_updateA_isSome {α β : Type} [DecidableEq α] {i k : α} (v : β)
    (l : List (α × β)) (h : (lookupA i l).isSome = true) :
    (lookupA i (updateA k v l)).isSome = true := by
  by_cases hk : k = i
  · subst hk; rw [lookupA_updateA_self]; rfl
  · rw [lookupA_updateA_ne v l hk]; exact h

theorem request_resource_cwi_isSome (s : ServerState) (req : Request) (i : Nat)
    (h : (lookupA i s.current_work_items).isSome = true) :
    (lookupA i ((request_resource s req).2).current_work_items).isSome = true := by
  rcases hr : request_resource s req with ⟨b, t⟩
  cases b
  · obtain ⟨ht, _⟩ := request_resource_false_eq hr
    subst ht; rw [ensureEntry_cwi]; exact h
  · obtain ⟨_, hcwi, _, _, _, _, _⟩ := request_resource_true_eq hr
    rw [hcwi]; exact lookupA_updateA_isSome _ _ h

theorem mem_insertPub {i c : Nat} {l : List Nat} (h : i ∈ l) : i ∈ insertPub c l := by
  unfold insertPub
  split
  · exact h
  · exact List.mem_append_left _ h

theorem self_mem_insertPub (c : Nat) (l : List Nat) : c ∈ insertPub c l := by
  unfold insertPub
  split
  · assumption
  · simp

end HelperLemmas

/-- Claim C1.  The spec requires a `read-config` branch replying
`{"type": "read-config", "config": <current config>}` with the loop
continuing, and the repo's own client (`_ResourceManagerClient.read_config`)
and tests (`test_1_basic`, `test_8_reconfigure`) rely on it; but the dispatch
in `run` has no such branch, so a `{"type": "read-config"}` message falls
into the final `else`: the broker replies `{}` and then raises
`Exception("Unknown request type")`, terminating the loop (and in debug mode
`jsonschema.validate` rejects the message even earlier, since `read-config`
is not in `ReceivedMessageSchema`).  This theorem evaluates the dispatch at
the failing input. -/
theorem C1_read_config_is_fatal (s : ServerState) :
    processMessage s (.other "read-config") = .fatal (some .emptyResp) s := rfl

/-- Claim C2.  The spec requires a never-admissible request (here the
scenario of `test_7_basic`: ceiling `read_data = 100`, request
`datasize = 1000`) to be answered with `{"invalid": true, "id": id}` and not
queued; but `run` has no validity check: the code replies
`{"available": false, "id": 0}` and appends the request to the wait queue,
where it can never be admitted.  This theorem evaluates the dispatch at the
failing input. -/
theorem C2_infeasible_request_is_queued :
    processMessage (initServerState ⟨96, 100, 96, 150000000⟩)
        (.request "my-resource" true 1 1000)
      = .ok (.availableResp false 0) []
          { config := ⟨96, 100, 96, 150000000⟩,
            resource_limits := [("my-resource", ServerStats.init)],
            current_work_items := [],
            work_items := [(0, ⟨0, "my-resource", true, 1, 1000⟩)],
            clientid := 1,
            publish_list := [] } := by decide

/-- Claim C3: `is_available` returns `true` iff the projected stats —
the current stats with `(numopts, datasize)` added to the `(reqs, data)`
pair selected by the request's `read` flag — have all four fields
`≤` (not `<`) the corresponding config ceilings; all four fields are
compared even though only one pair changes. -/
theorem C3_admissible_iff_projected_within_ceilings
    (cfg : Config) (req : Request) (curr : ServerStats) :
    is_available cfg req curr = true ↔
      ((applyDelta req curr).read_reqs ≤ cfg.read_reqs ∧
       (applyDelta req curr).read_data ≤ cfg.read_data ∧
       (applyDelta req curr).write_reqs ≤ cfg.write_reqs ∧
       (applyDelta req curr).write_data ≤ cfg.write_data) := by
  simp [is_available, Bool.and_eq_true, decide_eq_true_eq, and_assoc]

/-- Claim C5, counterexample.  A state whose wait queue holds a single
waiter that is admissible under the looser new config: processing the
`config` message replaces the config and echoes it, but publishes nothing
and leaves the admissible waiter queued — the code does not drain the wait
queue after reconfiguration, so the claim is false at this input. -/
theorem C5_counterexample_config_does_not_drain :
    processMessage
        { config := ⟨0, 0, 0, 0⟩,
          resource_limits := [("R", ServerStats.init)],
          current_work_items := [],
          work_items := [(0, ⟨0, "R", true, 1, 1⟩)],
          clientid := 1,
          publish_list := [] }
        (.config ⟨10, 10, 10, 10⟩)
      = .ok (.configEcho ⟨10, 10, 10, 10⟩) []
          { config := ⟨10, 10, 10, 10⟩,
            resource_limits := [("R", ServerStats.init)],
            current_work_items := [],
            work_items := [(0, ⟨0, "R", true, 1, 1⟩)],
            clientid := 1,
            publish_list := [] } ∧
    is_available ⟨10, 10, 10, 10⟩ ⟨0, "R", true, 1, 1⟩ ServerStats.init = true := by
  exact ⟨rfl, by decide⟩

/-- Claim C5 as amended: processing a `config` message only replaces the
active config and echoes it back; the wait queue, the stats, the granted
set and the pending-grant set are untouched and nothing is published — the
drain happens only after a `release`. -/
theorem C5_amended_config_replaces_and_echoes_only (s : ServerState) (c : Config) :
    processMessage s (.config c) = .ok (.configEcho c) [] { s with config := c } := rfl

/-- Claim C6, counterexample.  In non-debug mode a `hold` whose id is not in
the pending-grant set raises `KeyError` out of `publish_list.remove` before
any reply is sent, and an unknown message type sends `{}` but then raises
`Exception`, terminating the loop — in neither case does the broker "send
`{}` and continue", so the claim is false at these inputs. -/
theorem C6_counterexample_protocol_violation_is_fatal :
    processMessage (initServerState ⟨96, 200000000, 96, 150000000⟩) (.hold 5)
      = .fatal none (initServerState ⟨96, 200000000, 96, 150000000⟩) ∧
    processMessage (initServerState ⟨96, 200000000, 96, 150000000⟩) (.other "bogus")
      = .fatal (some .emptyResp) (initServerState ⟨96, 200000000, 96, 150000000⟩) := by
  decide

/-- Claim C6 as amended: on a protocol violation in non-debug mode the
server loop terminates — for an unknown message type the broker sends `{}`
and then raises `Exception("Unknown request type")`; for a `hold` whose id
is not in the pending-grant set it raises `KeyError` before sending any
reply. -/
theorem C6_amended_protocol_violation_terminates
    (s : ServerState) (tag : String) (id : Nat) (h : id ∉ s.publish_list) :
    processMessage s (.other tag) = .fatal (some .emptyResp) s ∧
    processMessage s (.hold id) = .fatal none s := by
  refine ⟨rfl, ?_⟩
  simp only [processMessage, if_neg h]

/-- Witness for the amended claim C6 at a concrete state. -/
theorem C6_amended_witness :
    5 ∉ (initServerState ⟨1, 1, 1, 1⟩).publish_list ∧
    (processMessage (initServerState ⟨1, 1, 1, 1⟩) (.other "bogus-type")
        = .fatal (some .emptyResp) (initServerState ⟨1, 1, 1, 1⟩) ∧
     processMessage (initServerState ⟨1, 1, 1, 1⟩) (.hold 5)
        = .fatal none (initServerState ⟨1, 1, 1, 1⟩)) :=
  ⟨by decide,
   C6_amended_protocol_violation_terminates (initServerState ⟨1, 1, 1, 1⟩)
     "bogus-type" 5 (by decide)⟩

/-- Claim C9: a `release` whose id is not in the granted set hits the
`KeyError` in `finish_work` (`self.current_work_items[curr_id]`) before any
reply is sent and before any mutation: nothing is sent on REQ_EP, the stats
and granted set are exactly as before, and the loop terminates. -/
theorem C9_release_unknown_id_fatal (s : ServerState) (id : Nat)
    (h : lookupA id s.current_work_items = none) :
    processMessage s (.release id) = .fatal none s := by
  simp only [processMessage, finish_work, h]

/-- Witness for claim C9 at a concrete state. -/
theorem C9_witness :
    lookupA 7 (initServerState ⟨1, 1, 1, 1⟩).current_work_items = none ∧
    processMessage (initServerState ⟨1, 1, 1, 1⟩) (.release 7)
      = .fatal none (initServerState ⟨1, 1, 1, 1⟩) :=
  ⟨by decide, C9_release_unknown_id_fatal (initServerState ⟨1, 1, 1, 1⟩) 7 (by decide)⟩

/-- Claim C10: when a `request` message is not admissible, the handler's
only state effects are (lazily) creating a zeroed stats entry for a
first-seen resource name, consuming one id from the counter, and appending
the request with priority 0 at the tail of the wait queue; every per-resource
counter, the granted set, the pending-grant set and the config are
unchanged, the assigned id is the old counter value, and nothing is
published. -/
theorem C10_queued_request_frame (s s' : ServerState) (resource : String)
    (rd : Bool) (numopts datasize : Int) (i : Nat) (pubs : List Nat)
    (h : processMessage s (.request resource rd numopts datasize)
           = .ok (.availableResp false i) pubs s') :
    i = s.clientid ∧
    pubs = [] ∧
    s'.clientid = s.clientid + 1 ∧
    s'.config = s.config ∧
    s'.publish_list = s.publish_list ∧
    s'.current_work_items = s.current_work_items ∧
    (∀ name, getStats s' name = getStats s name) ∧
    s'.work_items = s.work_items ++
      [(0, { id := s.clientid, resource := resource, read := rd,
             numopts := numopts, datasize := datasize })] ∧
    s'.resource_limits =
      (if lookupA resource s.resource_limits = none then
        s.resource_limits ++ [(resource, ServerStats.init)]
      else s.resource_limits) := by
  simp only [processMessage] at h
  rcases hr : request_resource { s with clientid := s.clientid + 1 }
      { id := s.clientid, resource := resource, read := rd,
        numopts := numopts, datasize := datasize } with ⟨b, t⟩
  rw [hr] at h
  cases b with
  | true => simp at h
  | false =>
    simp only [StepResult.ok.injEq, Reply.availableResp.injEq] at h
    obtain ⟨⟨_, hi⟩, hpubs, hs'⟩ := h
    obtain ⟨ht, _⟩ := request_resource_false_eq hr
    subst ht
    subst hs'
    refine ⟨hi.symm, hpubs.symm, ?_, ?_, ?_, ?_, ?_, ?_, ?_⟩
    · simp [ensureEntry_clientid]
    · simp [ensureEntry_config]
    · simp [ensureEntry_pub]
    · simp [ensureEntry_cwi]
    · intro name
      have h1 := getStats_ensureEntry { s with clientid := s.clientid + 1 }
        resource name
      simpa [getStats] using h1
    · simp [ensureEntry_wi]
    · show (ensureEntry { s with clientid := s.clientid + 1 } resource).resource_limits = _
      unfold ensureEntry
      cases hl : lookupA resource s.resource_limits <;> simp [hl]

/-- Witness for claim C10 at a concrete state: an inadmissible request
against an all-zero config is queued, and every resource's counters are
unchanged. -/
theorem C10_witness :
    processMessage (initServerState ⟨0, 0, 0, 0⟩) (.request "R" false 1 1)
        = .ok (.availableResp false 0) []
            { config := ⟨0, 0, 0, 0⟩,
              resource_limits := [("R", ServerStats.init)],
              current_work_items := [],
              work_items := [(0, ⟨0, "R", false, 1, 1⟩)],
              clientid := 1,
              publish_list := [] } ∧
    (∀ name,
      getStats
          { config := ⟨0, 0, 0, 0⟩,
            resource_limits := [("R", ServerStats.init)],
            current_work_items := [],
            work_items := [(0, ⟨0, "R", false, 1, 1⟩)],
            clientid := 1,
            publish_list := [] } name
        = getStats (initServerState ⟨0, 0, 0, 0⟩) name) :=
  ⟨by decide,
   (C10_queued_request_frame (initServerState ⟨0, 0, 0, 0⟩)
      { config := ⟨0, 0, 0, 0⟩,
        resource_limits := [("R", ServerStats.init)],
        current_work_items := [],
        work_items := [(0, ⟨0, "R", false, 1, 1⟩)],
        clientid := 1,
        publish_list := [] }
      "R" false 1 1 0 [] (by decide)).2.2.2.2.2.2.1⟩

/-- Claim C8: `finish_work` subtracts exactly the `numopts` and `datasize`
stored in the request record at grant time from the pair selected by the
request's `read` flag, so a commit (`request_resource` returning `True`)
followed immediately by the matching release restores every counter of
every resource to its value before the commit. -/
theorem C8_commit_then_release_restores_stats (s s' : ServerState) (req : Request)
    (h : request_resource s req = (true, s')) :
    ∃ s'', finish_work s' req.id = some s'' ∧
      ∀ name, getStats s'' name = getStats s name := by
  obtain ⟨hlim, hcwi, _, _, _, _, _⟩ := request_resource_true_eq h
  have hl1 : lookupA req.id s'.current_work_items = some req := by
    rw [hcwi]; exact lookupA_updateA_self _ _ _
  have hl2 : lookupA req.resource s'.resource_limits
      = some (applyDelta req (getStats s req.resource)) := by
    rw [hlim]; exact lookupA_updateA_self _ _ _
  refine ⟨{ s' with
            current_work_items := eraseA req.id s'.current_work_items,
            resource_limits :=
              updateA req.resource
                (subDelta req (applyDelta req (getStats s req.resource)))
                s'.resource_limits }, ?_, ?_⟩
  · simp only [finish_work, hl1, hl2]
  · intro name
    show (lookupA name
        (updateA req.resource
          (subDelta req (applyDelta req (getStats s req.resource)))
          s'.resource_limits)).getD ServerStats.init = getStats s name
    rw [subDelta_applyDelta]
    by_cases hname : req.resource = name
    · subst hname
      rw [lookupA_updateA_self]
      rfl
    · rw [lookupA_updateA_ne _ _ hname, hlim,
          lookupA_updateA_ne _ _ hname]
      have := getStats_ensureEntry s req.resource name
      unfold getStats at this
      exact this

/-- Witness for claim C8 at a concrete state: grant a read request for 1
op / 2 bytes and release it; the stats return to their initial values. -/
theorem C8_witness :
    request_resource (initServerState ⟨10, 10, 10, 10⟩) ⟨0, "R", true, 1, 2⟩
        = (true,
           { config := ⟨10, 10, 10, 10⟩,
             resource_limits := [("R", ⟨1, 2, 0, 0⟩)],
             current_work_items := [(0, ⟨0, "R", true, 1, 2⟩)],
             work_items := [],
             clientid := 0,
             publish_list := [] }) ∧
    (∃ s'',
      finish_work
          { config := ⟨10, 10, 10, 10⟩,
            resource_limits := [("R", ⟨1, 2, 0, 0⟩)],
            current_work_items := [(0, ⟨0, "R", true, 1, 2⟩)],
            work_items := [],
            clientid := 0,
            publish_list := [] }
          (Request.id ⟨0, "R", true, 1, 2⟩) = some s'' ∧
      ∀ name, getStats s'' name = getStats (initServerState ⟨10, 10, 10, 10⟩) name) :=
  ⟨by decide,
   C8_commit_then_release_restores_stats (initServerState ⟨10, 10, 10, 10⟩)
     { config := ⟨10, 10, 10, 10⟩,
       resource_limits := [("R", ⟨1, 2, 0, 0⟩)],
       current_work_items := [(0, ⟨0, "R", true, 1, 2⟩)],
       work_items := [],
       clientid := 0,
       publish_list := [] }
     ⟨0, "R", true, 1, 2⟩ (by decide)⟩

section DrainLemmas

/-- Full characterization of the drain loop: it grants exactly a prefix of
the wait queue (never skipping ahead), publishes those ids in order, keeps
them in the pending-grant set and the granted set, preserves the config,
and stops with an empty queue or an inadmissible head. -/
theorem drainLoop_spec (fuel : Nat) :
    ∀ (s : ServerState) (pubs : List Nat),
      s.work_items.length ≤ fuel →
      ∃ k s',
        drainLoop fuel s pubs
            = (s', pubs.reverse ++ (s.work_items.take k).map (fun pw => pw.2.id)) ∧
        s'.work_items = s.work_items.drop k ∧
        s'.config = s.config ∧
        (∀ i ∈ s.publish_list, i ∈ s'.publish_list) ∧
        (∀ i : Nat, (lookupA i s.current_work_items).isSome = true →
            (lookupA i s'.current_work_items).isSome = true) ∧
        (∀ pw ∈ s.work_items.take k,
            pw.2.id ∈ s'.publish_list ∧
            (lookupA pw.2.id s'.current_work_items).isSome = true) ∧
        (s'.work_items = [] ∨ headNotAdmissible s') := by
  induction fuel with
  | zero =>
    intro s pubs hlen
    have hw : s.work_items = [] := List.length_eq_zero.mp (Nat.le_zero.mp hlen)
    refine ⟨0, s, ?_, ?_, rfl, fun i hi => hi, fun i hi => hi, ?_, Or.inl hw⟩
    · simp [drainLoop]
    · simp
    · simp
  | succ fuel ih =>
    intro s pubs hlen
    cases hw : s.work_items with
    | nil =>
      refine ⟨0, s, ?_, ?_, rfl, fun i hi => hi, fun i hi => hi, ?_, Or.inl hw⟩
      · simp [drainLoop, hw]
      · simpa using hw
      · simp
    | cons head rest =>
      obtain ⟨p, w⟩ := head
      rcases hr : request_resource { s with work_items := rest } w with ⟨b, s₂⟩
      have hwi₂ : s₂.work_items = rest := by
        have h := request_resource_wi { s with work_items := rest } w
        rw [hr] at h; exact h
      have hcfg₂ : s₂.config = s.config := by
        have h := request_resource_config₂ { s with work_items := rest } w
        rw [hr] at h; exact h
      cases b with
      | true =>
        have hpub₂ : s₂.publish_list = s.publish_list := by
          have h := request_resource_pub { s with work_items := rest } w
          rw [hr] at h; exact h
        have h1 : find_work s = ((w.id : Int), s₂) := by
          simp only [find_work, hw, hr]
        have hstep : drainLoop (fuel + 1) s pubs
            = drainLoop fuel { s₂ with publish_list := insertPub w.id s₂.publish_list }
                (w.id :: pubs) := by
          simp only [drainLoop, hw, List.length_cons, h1]
          rw [if_neg (by omega : ¬(rest.length + 1 = 0)),
              if_neg (by omega : ¬((w.id : Int) = -1))]
          simp
        have hswi : ({ s₂ with publish_list := insertPub w.id s₂.publish_list} :
            ServerState).work_items = rest := hwi₂
        have hlen' : ({ s₂ with publish_list := insertPub w.id s₂.publish_list} :
            ServerState).work_items.length ≤ fuel := by
          rw [hswi]
          rw [hw] at hlen
          simpa using hlen
        obtain ⟨k', s', heq, hdrop, hcfg, hpub, hcwi, hgrant, hfinal⟩ :=
          ih { s₂ with publish_list := insertPub w.id s₂.publish_list } (w.id :: pubs) hlen'
        refine ⟨k' + 1, s', ?_, ?_, ?_, ?_, ?_, ?_, hfinal⟩
        · rw [hstep, heq, hswi, List.take_succ_cons, List.map_cons,
              List.reverse_cons, List.append_assoc, List.singleton_append]
        · rw [hdrop, hswi, List.drop_succ_cons]
        · rw [hcfg]
          exact hcfg₂
        · intro i hi
          apply hpub
          show i ∈ insertPub w.id s₂.publish_list
          apply mem_insertPub
          rw [hpub₂]
          exact hi
        · intro i hi
          apply hcwi
          show (lookupA i s₂.current_work_items).isSome = true
          have h := request_resource_cwi_isSome { s with work_items := rest } w i hi
          rw [hr] at h
          exact h
        · intro pw hpw
          rw [List.take_succ_cons] at hpw
          rcases List.mem_cons.mp hpw with hpw | hpw
          · subst hpw
            constructor
            · apply hpub
              exact self_mem_insertPub _ _
            · apply hcwi
              show (lookupA w.id s₂.current_work_items).isSome = true
              obtain ⟨_, hcwi₂, _, _, _, _, _⟩ := request_resource_true_eq hr
              rw [hcwi₂, lookupA_updateA_self]
              rfl
          · apply hgrant
            rw [hswi]
            exact hpw
      | false =>
        obtain ⟨ht, hav⟩ := request_resource_false_eq hr
        have h1 : find_work s = (-1, { s₂ with work_items := (p, w) :: s₂.work_items }) := by
          simp only [find_work, hw, hr]
        have hstep : drainLoop (fuel + 1) s pubs
            = ({ s₂ with work_items := (p, w) :: s₂.work_items }, pubs.reverse) := by
          simp only [drainLoop, hw, List.length_cons, h1]
          rw [if_neg (by omega : ¬(rest.length + 1 = 0))]
          simp
        refine ⟨0, { s₂ with work_items := (p, w) :: s₂.work_items },
          ?_, ?_, hcfg₂, ?_, ?_, ?_, Or.inr ?_⟩
        · rw [hstep]; simp
        · show (p, w) :: s₂.work_items = ((p, w) :: rest).drop 0
          rw [List.drop_zero, hwi₂]
        · intro i hi
          show i ∈ s₂.publish_list
          have h := request_resource_pub { s with work_items := rest } w
          rw [hr] at h
          rw [h]
          exact hi
        · intro i hi
          show (lookupA i s₂.current_work_items).isSome = true
          rw [ht, ensureEntry_cwi]
          exact hi
        · simp
        · intro p' w' rest' heq'
          have heq'' : (p, w) :: s₂.work_items = (p', w') :: rest' := heq'
          have hw' : w' = w := by
            have h := (List.cons.injEq _ _ _ _ ▸ heq'').1
            exact ((Prod.mk.injEq _ _ _ _ ▸ h).2).symm
          rw [hw']
          have hgs : getStats ({ s₂ with work_items := (p, w) :: s₂.work_items } :
              ServerState) w.resource = getStats s w.resource := by
            show getStats s₂ w.resource = getStats s w.resource
            rw [ht, getStats_ensureEntry]
            rfl
          rw [hgs]
          show is_available s₂.config w (getStats s w.resource) = false
          rw [hcfg₂]
          exact hav


end DrainLemmas

/-- Claim C4: after the broker processes any `release` message (successfully,
i.e. the loop continues), the drain has granted exactly a prefix of the wait
queue — each granted waiter was committed, its id was put in the
pending-grant set and published, in queue order, never skipping ahead — and
what remains is either an empty queue or a queue whose head is not
admissible under the post-release stats. -/
theorem C4_release_drain_completeness (s : ServerState) (rid : Nat) (r : Reply)
    (pubs : List Nat) (s' : ServerState)
    (h : processMessage s (.release rid) = .ok r pubs s') :
    (∃ k, s'.work_items = s.work_items.drop k ∧
          pubs = (s.work_items.take k).map (fun pw => pw.2.id) ∧
          ∀ pw ∈ s.work_items.take k,
            pw.2.id ∈ s'.publish_list ∧
            (lookupA pw.2.id s'.current_work_items).isSome = true) ∧
    (s'.work_items = [] ∨ headNotAdmissible s') := by
  simp only [processMessage] at h
  cases hf : finish_work s rid with
  | none => rw [hf] at h; exact absurd h (by simp)
  | some s₁ =>
    simp only [hf] at h
    rcases hd : drain s₁ with ⟨s₂, pubs'⟩
    simp only [hd, StepResult.ok.injEq] at h
    obtain ⟨-, hpubs, hs2⟩ := h
    obtain ⟨k, s'', heq, hdrop, hcfg, hpub, hcwi, hgrant, hfinal⟩ :=
      drainLoop_spec s₁.work_items.length s₁ [] (le_refl _)
    rw [show drain s₁ = drainLoop s₁.work_items.length s₁ [] from rfl, heq] at hd
    simp only [List.reverse_nil, List.nil_append, Prod.mk.injEq] at hd
    obtain ⟨hs'', hpubs'⟩ := hd
    obtain ⟨req, stats, hq1, hq2, hs₁⟩ := finish_work_some hf
    have hwi₁ : s₁.work_items = s.work_items := by rw [hs₁]
    subst hs2
    subst hs''
    refine ⟨⟨k, ?_, ?_, ?_⟩, hfinal⟩
    · rw [hdrop, hwi₁]
    · rw [← hpubs, ← hpubs', hwi₁]
    · intro pw hpw
      apply hgrant
      rw [hwi₁]
      exact hpw

/-- Witness for claim C4 at a concrete state: releasing the only holder
under a `read_reqs = 1` ceiling admits the first waiter (published as id 1)
and leaves the second waiter blocked at the head of the queue. -/
theorem C4_witness :
    processMessage exampleReleaseState (.release 0)
        = .ok .emptyResp [1] exampleReleaseResult ∧
    ((∃ k,
        exampleReleaseResult.work_items = exampleReleaseState.work_items.drop k ∧
        [1] = (exampleReleaseState.work_items.take k).map (fun pw => pw.2.id) ∧
        ∀ pw ∈ exampleReleaseState.work_items.take k,
          pw.2.id ∈ exampleReleaseResult.publish_list ∧
          (lookupA pw.2.id exampleReleaseResult.current_work_items).isSome = true) ∧
     (exampleReleaseResult.work_items = [] ∨ headNotAdmissible exampleReleaseResult)) :=
  ⟨by decide,
   C4_release_drain_completeness exampleReleaseState 0 .emptyResp [1]
     exampleReleaseResult (by decide)⟩

section CeilingLemmas

theorem ceilingInv_ensureEntry {s : ServerState} (n : String)
    (h : CeilingInv s) : CeilingInv (ensureEntry s n) := by
  obtain ⟨hc, hlim, hcwi, hwi⟩ := h
  refine ⟨?_, ?_, ?_, ?_⟩
  · rw [ensureEntry_config]; exact hc
  · intro q hq
    rw [ensureEntry_config]
    rcases mem_ensureEntry hq with hq | hq
    · exact hlim q hq
    · subst hq; exact statsLE_init hc
  · rw [ensureEntry_cwi]; exact hcwi
  · rw [ensureEntry_wi]; exact hwi

theorem ceilingInv_request_resource {s : ServerState} {req : Request}
    (h : CeilingInv s) (hn : reqNonneg req) :
    CeilingInv ((request_resource s req).2) := by
  rcases hr : request_resource s req with ⟨b, t⟩
  cases b
  · obtain ⟨ht, _⟩ := request_resource_false_eq hr
    subst ht
    exact ceilingInv_ensureEntry _ h
  · obtain ⟨hlimt, hcwit, hcfgt, hwit, _, _, hav⟩ := request_resource_true_eq hr
    obtain ⟨hc, hlim, hcwi, hwi⟩ := h
    refine ⟨?_, ?_, ?_, ?_⟩
    · rw [hcfgt]; exact hc
    · intro q hq
      rw [hcfgt]
      rw [hlimt] at hq
      rcases mem_updateA hq with hq | hq
      · rcases mem_ensureEntry hq with hq | hq
        · exact hlim q hq
        · subst hq; exact statsLE_init hc
      · subst hq
        exact (is_available_iff _ _ _).mp hav
    · intro q hq
      rw [hcwit] at hq
      rcases mem_updateA hq with hq | hq
      · exact hcwi q hq
      · subst hq; exact hn
    · intro q hq
      rw [hwit] at hq
      exact hwi q hq

theorem ceilingInv_finish_work {s s' : ServerState} {rid : Nat}
    (h : CeilingInv s) (hf : finish_work s rid = some s') : CeilingInv s' := by
  obtain ⟨req, stats, hq1, hq2, hs'⟩ := finish_work_some hf
  obtain ⟨hc, hlim, hcwi, hwi⟩ := h
  subst hs'
  refine ⟨hc, ?_, ?_, hwi⟩
  · intro q hq
    rcases mem_updateA hq with hq | hq
    · exact hlim q hq
    · subst hq
      exact statsLE_subDelta (hcwi _ (lookupA_mem hq1)) (hlim _ (lookupA_mem hq2))
  · intro q hq
    exact hcwi q (mem_eraseA hq)

theorem ceilingInv_drainLoop (fuel : Nat) :
    ∀ (s : ServerState) (pubs : List Nat),
      CeilingInv s → CeilingInv (drainLoop fuel s pubs).1 := by
  induction fuel with
  | zero => intro s pubs h; exact h
  | succ fuel ih =>
    intro s pubs h
    cases hw : s.work_items with
    | nil =>
      have : drainLoop (fuel + 1) s pubs = (s, pubs.reverse) := by
        simp [drainLoop, hw]
      rw [this]
      exact h
    | cons head rest =>
      obtain ⟨p, w⟩ := head
      obtain ⟨hc, hlim, hcwi, hwi⟩ := h
      have hcs : CeilingInv { s with work_items := rest } := by
        refine ⟨hc, hlim, hcwi, ?_⟩
        intro q hq
        exact hwi q (by rw [hw]; exact List.mem_cons_of_mem _ hq)
      have hwn : reqNonneg w := hwi (p, w) (by rw [hw]; exact List.mem_cons_self _ _)
      rcases hr : request_resource { s with work_items := rest } w with ⟨b, s₂⟩
      have hs₂ : CeilingInv s₂ := by
        have hh := ceilingInv_request_resource hcs hwn
        rw [hr] at hh
        exact hh
      cases b with
      | true =>
        have h1 : find_work s = ((w.id : Int), s₂) := by
          simp only [find_work, hw, hr]
        have hstep : drainLoop (fuel + 1) s pubs
            = drainLoop fuel { s₂ with publish_list := insertPub w.id s₂.publish_list }
                (w.id :: pubs) := by
          simp only [drainLoop, hw, List.length_cons, h1]
          rw [if_neg (by omega : ¬(rest.length + 1 = 0)),
              if_neg (by omega : ¬((w.id : Int) = -1))]
          simp
        rw [hstep]
        exact ih _ _ hs₂
      | false =>
        have h1 : find_work s = (-1, { s₂ with work_items := (p, w) :: s₂.work_items }) := by
          simp only [find_work, hw, hr]
        have hstep : drainLoop (fuel + 1) s pubs
            = ({ s₂ with work_items := (p, w) :: s₂.work_items }, pubs.reverse) := by
          simp only [drainLoop, hw, List.length_cons, h1]
          rw [if_neg (by omega : ¬(rest.length + 1 = 0))]
          simp
        rw [hstep]
        obtain ⟨hc₂, hlim₂, hcwi₂, hwi₂⟩ := hs₂
        refine ⟨hc₂, hlim₂, hcwi₂, ?_⟩
        intro q hq
        rcases List.mem_cons.mp hq with hq | hq
        · subst hq; exact hwn
        · exact hwi₂ q hq

end CeilingLemmas

/-- Claim C7: the ceiling invariant — every recorded resource's four
counters are `≤` the corresponding config ceilings — is preserved by every
successfully handled message, and therefore holds at every point between
handled messages once it holds initially.  The provisos are exactly those of
the claim and of the data model: requests carry non-negative deltas
(`numopts` positive, `datasize` non-negative per §3), the config fields are
non-negative, and a reconfigure never tightens a ceiling below existing
usage (`msgOK`).  In particular, committing an admitted request preserves
the bound because `is_available` checked the projected stats against the
ceilings with `≤`. -/
theorem C7_ceilings_preserved (s : ServerState) (m : Msg)
    (hInv : CeilingInv s) (hm : msgOK s m) (r : Reply) (pubs : List Nat)
    (s' : ServerState) (h : processMessage s m = .ok r pubs s') :
    CeilingInv s' := by
  cases m with
  | request resource rd numopts datasize =>
    simp only [processMessage] at h
    rcases hr : request_resource { s with clientid := s.clientid + 1 }
        { id := s.clientid, resource := resource, read := rd,
          numopts := numopts, datasize := datasize } with ⟨b, t⟩
    rw [hr] at h
    have hInv₀ : CeilingInv { s with clientid := s.clientid + 1 } := hInv
    have hn : reqNonneg
        { id := s.clientid, resource := resource, read := rd,
          numopts := numopts, datasize := datasize } := hm
    have ht : CeilingInv t := by
      have hh := ceilingInv_request_resource hInv₀ hn
      rw [hr] at hh
      exact hh
    cases b with
    | true =>
      simp only [StepResult.ok.injEq] at h
      obtain ⟨-, -, hs⟩ := h
      subst hs
      exact ht
    | false =>
      simp only [StepResult.ok.injEq] at h
      obtain ⟨-, -, hs⟩ := h
      subst hs
      obtain ⟨hc, hlim, hcwi, hwi⟩ := ht
      refine ⟨hc, hlim, hcwi, ?_⟩
      intro q hq
      rcases List.mem_append.mp hq with hq | hq
      · exact hwi q hq
      · rw [List.mem_singleton.mp hq]
        exact hn
  | hold hid =>
    simp only [processMessage] at h
    split at h
    · simp only [StepResult.ok.injEq] at h
      obtain ⟨-, -, hs⟩ := h
      subst hs
      exact hInv
    · exact absurd h (by simp)
  | release rid =>
    simp only [processMessage] at h
    cases hf : finish_work s rid with
    | none => rw [hf] at h; exact absurd h (by simp)
    | some s₁ =>
      simp only [hf] at h
      rcases hd : drain s₁ with ⟨s₂, pubs'⟩
      simp only [hd, StepResult.ok.injEq] at h
      obtain ⟨-, -, hs⟩ := h
      subst hs
      have h₁ : CeilingInv s₁ := ceilingInv_finish_work hInv hf
      have h₂ := ceilingInv_drainLoop s₁.work_items.length s₁ [] h₁
      have h₃ : drainLoop s₁.work_items.length s₁ [] = (s₂, pubs') := hd
      rw [h₃] at h₂
      exact h₂
  | config c =>
    simp only [processMessage, StepResult.ok.injEq] at h
    obtain ⟨-, -, hs⟩ := h
    subst hs
    obtain ⟨-, -, hcwi, hwi⟩ := hInv
    exact ⟨hm.1, hm.2, hcwi, hwi⟩
  | other tag =>
    exact absurd h (by simp [processMessage])

/-- Witness for claim C7 at a concrete state: an admitted read request
(1 op / 5 bytes on top of 1 op / 5 bytes, ceilings 2 ops / 10 bytes) keeps
every counter within the ceilings. -/
theorem C7_witness :
    CeilingInv
      { config := ⟨2, 10, 2, 10⟩,
        resource_limits := [("R", ⟨1, 5, 0, 0⟩)],
        current_work_items := [(0, ⟨0, "R", true, 1, 5⟩)],
        work_items := [],
        clientid := 1,
        publish_list := [] } ∧
    msgOK
      { config := ⟨2, 10, 2, 10⟩,
        resource_limits := [("R", ⟨1, 5, 0, 0⟩)],
        current_work_items := [(0, ⟨0, "R", true, 1, 5⟩)],
        work_items := [],
        clientid := 1,
        publish_list := [] }
      (.request "R" true 1 5) ∧
    CeilingInv
      { config := ⟨2, 10, 2, 10⟩,
        resource_limits := [("R", ⟨2, 10, 0, 0⟩)],
        current_work_items := [(0, ⟨0, "R", true, 1, 5⟩), (1, ⟨1, "R", true, 1, 5⟩)],
        work_items := [],
        clientid := 2,
        publish_list := [] } :=
  ⟨by decide, by decide,
   C7_ceilings_preserved
     { config := ⟨2, 10, 2, 10⟩,
       resource_limits := [("R", ⟨1, 5, 0, 0⟩)],
       current_work_items := [(0, ⟨0, "R", true, 1, 5⟩)],
       work_items := [],
       clientid := 1,
       publish_list := [] }
     (.request "R" true 1 5) (by decide) (by decide)
     (.availableResp true 1) []
     { config := ⟨2, 10, 2, 10⟩,
       resource_limits := [("R", ⟨2, 10, 0, 0⟩)],
       current_work_items := [(0, ⟨0, "R", true, 1, 5⟩), (1, ⟨1, "R", true, 1, 5⟩)],
       work_items := [],
       clientid := 2,
       publish_list := [] }
     (by decide)⟩

end DVIDRM
